import Mathlib

set_option maxRecDepth 8000

/-! Verification of the iota.rs client migration-bundle module
(src/iota-client/src/migration/bundle.rs) and the address derivation builder
(src/iota-client/src/api/address.rs).

Modelling conventions: Rust machine integers become Nat with an explicit
reduction modulo 2 ^ 64 or 2 ^ 8 where overflow matters; fallible Rust code
returns Except; code that can panic returns the PanicOutcome wrapper below.
Balanced-ternary trits are the three-valued Trit type.  The bee dependency
types (BundledTransaction, OutgoingBundleBuilder, TryteBuf) are embedded at
the granularity the migration module observes them: a bundled transaction is
its fixed 8019-trit raw layout split into the named fields of the legacy
wire format, and the external seal/sign/attach/build pipeline of
OutgoingBundleBuilder is an oracle parameter (its output transaction list),
since that pipeline lives outside this repository. -/

/-- Balanced trit: one of minus one, zero, plus one. -/
inductive Trit where
  | neg
  | zero
  | pos
deriving DecidableEq, Repr

/-- Numeric value of a trit. -/
def Trit.val : Trit → Int
  | .neg => -1
  | .zero => 0
  | .pos => 1

/-- Errors of the client crate that the embedded functions can produce.
The Rust Error type carries human readable strings; here each distinct
message used by the migration and address modules is one constructor. -/
inductive Error where
  | noInputs
  | securityLevelMismatch
  | inputAddressCountMismatch
  | missingInputAddress
  | cannotMineWithoutSpentBundleHashes
  | missingParameterAccountIndex
  | invalidTryteChar
  | invalidTransactionLength
deriving DecidableEq, Repr

/-- Reasons for a Rust panic reachable in the embedded functions. -/
inductive PanicMsg where
  | indexOutOfBounds
  | copyFromLengthMismatch
  | invalidSecurityLevel
  | unsupportedSeedScheme
deriving DecidableEq, Repr

/-- Outcome of a Rust function that can panic: either a panic or a value. -/
inductive PanicOutcome (α : Type) where
  | panicked (msg : PanicMsg)
  | ret (val : α)
deriving DecidableEq, Repr

/-- Tail of the Rust Vec dedup walk: prev is the last element kept; a run
of elements equal to the previous kept element is dropped. -/
def dedupLoop {α : Type} [DecidableEq α] (prev : α) : List α → List α
  | [] => []
  | b :: rest =>
    if prev = b then dedupLoop prev rest else b :: dedupLoop b rest

/-- Rust Vec dedup: removes consecutive repeated elements, keeping the first
element of each run.  Non-adjacent duplicates are kept. -/
def dedupAdjacent {α : Type} [DecidableEq α] : List α → List α
  | [] => []
  | a :: rest => a :: dedupLoop a rest

theorem dedupLoop_chain {α : Type} [DecidableEq α] :
    ∀ (l : List α) (p : α),
      List.Chain' (fun x y => x ≠ y) (p :: dedupLoop p l) := by
  intro l
  induction l with
  | nil => intro p; simp [dedupLoop]
  | cons b rest ih =>
    intro p
    by_cases hpb : p = b
    · simpa [dedupLoop, hpb] using ih b
    · rw [show dedupLoop p (b :: rest) = b :: dedupLoop b rest by
        simp [dedupLoop, hpb]]
      exact List.chain'_cons.mpr ⟨hpb, ih b⟩

theorem dedupAdjacent_chain {α : Type} [DecidableEq α] (l : List α) :
    List.Chain' (fun x y => x ≠ y) (dedupAdjacent l) := by
  cases l with
  | nil => simp [dedupAdjacent]
  | cons a rest => exact dedupLoop_chain rest a

theorem dedupLoop_eq_self {α : Type} [DecidableEq α] :
    ∀ (l : List α) (p : α), List.Chain' (fun x y => x ≠ y) (p :: l) →
      dedupLoop p l = l := by
  intro l
  induction l with
  | nil => intro p _; rfl
  | cons b rest ih =>
    intro p h
    rw [List.chain'_cons] at h
    rw [show dedupLoop p (b :: rest) = b :: dedupLoop b rest by
      simp [dedupLoop, h.1]]
    rw [ih b h.2]

theorem dedupAdjacent_eq_self {α : Type} [DecidableEq α] (l : List α)
    (h : List.Chain' (fun x y => x ≠ y) l) : dedupAdjacent l = l := by
  cases l with
  | nil => rfl
  | cons a rest =>
    rw [dedupAdjacent, dedupLoop_eq_self rest a h]

theorem mem_dedupLoop {α : Type} [DecidableEq α] (x : α) :
    ∀ (l : List α) (p : α), (x ∈ dedupLoop p l ∨ x = p) ↔ (x ∈ l ∨ x = p) := by
  intro l
  induction l with
  | nil => intro p; simp [dedupLoop]
  | cons b rest ih =>
    intro p
    by_cases hpb : p = b
    · rw [show dedupLoop p (b :: rest) = dedupLoop p rest from by
        simp [dedupLoop, hpb]]
      rw [ih p]
      simp only [List.mem_cons, ← hpb]
      tauto
    · rw [show dedupLoop p (b :: rest) = b :: dedupLoop b rest from by
        simp [dedupLoop, hpb]]
      have hb := ih b
      simp only [List.mem_cons] at hb ⊢
      tauto

theorem mem_dedupAdjacent {α : Type} [DecidableEq α] (l : List α) (x : α) :
    x ∈ dedupAdjacent l ↔ x ∈ l := by
  cases l with
  | nil => simp [dedupAdjacent]
  | cons a rest =>
    rw [dedupAdjacent]
    have h := mem_dedupLoop x rest a
    simp only [List.mem_cons] at h ⊢
    tauto

instance {ε α : Type} [DecidableEq ε] [DecidableEq α] :
    DecidableEq (Except ε α)
  | .error e, .error f =>
    if h : e = f then .isTrue (by rw [h])
    else .isFalse (fun hc => by injection hc; contradiction)
  | .error _, .ok _ => .isFalse (fun hc => Except.noConfusion hc)
  | .ok _, .error _ => .isFalse (fun hc => Except.noConfusion hc)
  | .ok a, .ok b =>
    if h : a = b then .isTrue (by rw [h])
    else .isFalse (fun hc => by injection hc; contradiction)

/-- The tryte alphabet of the legacy ternary wire encoding: the character at
index k encodes the tryte whose balanced value is congruent to k modulo 27. -/
def tryteAlphabet : List Char :=
  ['9', 'A', 'B', 'C', 'D', 'E', 'F', 'G', 'H', 'I', 'J', 'K', 'L', 'M',
   'N', 'O', 'P', 'Q', 'R', 'S', 'T', 'U', 'V', 'W', 'X', 'Y', 'Z']

/-- Character encoding one tryte, that is three trits in little-endian order. -/
def charOfTrits (a b c : Trit) : Char :=
  tryteAlphabet.getD ((a.val + 3 * b.val + 9 * c.val) % 27).toNat '9'

/-- Fixed-width balanced-ternary encoding of an integer, little-endian,
truncated to the given number of trits. -/
def intToBalTrits : Nat → Int → List Trit
  | 0, _ => []
  | n + 1, v =>
    let d : Int := (v + 1) % 3 - 1
    (if d = 1 then Trit.pos else if d = 0 then Trit.zero else Trit.neg) ::
      intToBalTrits n ((v - d) / 3)

/-- Balanced value of the tryte encoded at a given alphabet index. -/
def valOfTryteIndex (i : Nat) : Int :=
  if i ≤ 13 then (i : Int) else (i : Int) - 27

/-- Decode one tryte character to its three trits; fails on characters
outside the tryte alphabet (TryteBuf try_from_str behaviour). -/
def tryteCharToTrits (ch : Char) : Except Error (Trit × Trit × Trit) :=
  match tryteAlphabet.findIdx? (fun x => x == ch) with
  | none => .error .invalidTryteChar
  | some i =>
    match intToBalTrits 3 (valOfTryteIndex i) with
    | [a, b, c] => .ok (a, b, c)
    | _ => .error .invalidTryteChar

/-- T3B1 encoding: a trit buffer rendered as tryte characters, three trits
per character; a trailing group of fewer than three trits is dropped (the
buffers serialized by the client always have a length divisible by three). -/
def tryteCharsOfTrits : List Trit → List Char
  | a :: b :: c :: rest => charOfTrits a b c :: tryteCharsOfTrits rest
  | _ => []

/-- Serialize a trit buffer to its tryte string form. -/
def tritsToTryteString (l : List Trit) : String :=
  String.mk (tryteCharsOfTrits l)

/-- Decode a list of tryte characters back to trits (TryteBuf try_from_str
followed by the trit re-encoding used in bundle.rs). -/
def charsToTrits : List Char → Except Error (List Trit)
  | [] => .ok []
  | ch :: rest => do
    let (a, b, c) ← tryteCharToTrits ch
    let ts ← charsToTrits rest
    return a :: b :: c :: ts

/-- Decode a tryte string to trits. -/
def tryteStringToTrits (s : String) : Except Error (List Trit) :=
  charsToTrits s.toList

theorem tryteCharToTrits_charOfTrits (a b c : Trit) :
    tryteCharToTrits (charOfTrits a b c) = .ok (a, b, c) := by
  cases a <;> cases b <;> cases c <;> decide

theorem length_tryteCharsOfTrits (l : List Trit) :
    (tryteCharsOfTrits l).length = l.length / 3 := by
  induction l using tryteCharsOfTrits.induct with
  | case1 a b c rest ih =>
    simp only [tryteCharsOfTrits, List.length_cons, ih]
    omega
  | case2 l hshape =>
    match l, hshape with
    | [], _ => simp [tryteCharsOfTrits]
    | [a], _ => simp [tryteCharsOfTrits]
    | [a, b], _ => simp [tryteCharsOfTrits]
    | a :: b :: c :: rest, hs => exact absurd rfl (hs a b c rest)

theorem charsToTrits_tryteCharsOfTrits (l : List Trit) (h : l.length % 3 = 0) :
    charsToTrits (tryteCharsOfTrits l) = .ok l := by
  induction l using tryteCharsOfTrits.induct with
  | case1 a b c rest ih =>
    simp only [List.length_cons] at h
    have hr : rest.length % 3 = 0 := by omega
    simp only [tryteCharsOfTrits, charsToTrits, tryteCharToTrits_charOfTrits,
      ih hr]
    rfl
  | case2 l hshape =>
    match l, hshape with
    | [], _ => rfl
    | [a], _ => simp at h
    | [a, b], _ => simp at h
    | a :: b :: c :: rest, hs => exact absurd rfl (hs a b c rest)

theorem tryteStringToTrits_tritsToTryteString (l : List Trit)
    (h : l.length % 3 = 0) :
    tryteStringToTrits (tritsToTryteString l) = .ok l := by
  simpa [tryteStringToTrits, tritsToTryteString] using
    charsToTrits_tryteCharsOfTrits l h

/-- Legacy bundled transaction, 8019 trits in total, embedded as its named
raw-layout fields in wire order.  Field widths: payload 6561, address 243,
value 81, obsolete_tag 81, timestamp 27, index 27, last_index 27, bundle 243,
trunk 243, branch 243, tag 81, attachment_ts 27, attachment_lbts 27,
attachment_ubts 27, nonce 81. -/
structure BundledTransaction where
  payload : List Trit
  address : List Trit
  value : List Trit
  obsolete_tag : List Trit
  timestamp : List Trit
  index : List Trit
  last_index : List Trit
  bundle : List Trit
  trunk : List Trit
  branch : List Trit
  tag : List Trit
  attachment_ts : List Trit
  attachment_lbts : List Trit
  attachment_ubts : List Trit
  nonce : List Trit
deriving DecidableEq, Repr

/-- Well-formedness: every field has its fixed legacy width. -/
def WFTx (tx : BundledTransaction) : Prop :=
  tx.payload.length = 6561 ∧ tx.address.length = 243 ∧
  tx.value.length = 81 ∧ tx.obsolete_tag.length = 81 ∧
  tx.timestamp.length = 27 ∧ tx.index.length = 27 ∧
  tx.last_index.length = 27 ∧ tx.bundle.length = 243 ∧
  tx.trunk.length = 243 ∧ tx.branch.length = 243 ∧
  tx.tag.length = 81 ∧ tx.attachment_ts.length = 27 ∧
  tx.attachment_lbts.length = 27 ∧ tx.attachment_ubts.length = 27 ∧
  tx.nonce.length = 81

instance (tx : BundledTransaction) : Decidable (WFTx tx) := by
  unfold WFTx; infer_instance

/-- Raw 8019-trit representation of a transaction (bee as_trits_allocated,
which for the always well-formed bee transactions fills the 8019-trit buffer
with exactly these fields in this order). -/
def as_trits (tx : BundledTransaction) : List Trit :=
  tx.payload ++ tx.address ++ tx.value ++ tx.obsolete_tag ++ tx.timestamp ++
  tx.index ++ tx.last_index ++ tx.bundle ++ tx.trunk ++ tx.branch ++
  tx.tag ++ tx.attachment_ts ++ tx.attachment_lbts ++ tx.attachment_ubts ++
  tx.nonce

/-- Parse a transaction from its raw trit representation (bee from_trits);
fails unless the buffer has the fixed raw width. -/
def from_trits (l : List Trit) : Except Error BundledTransaction :=
  if l.length = 8019 then
    .ok
      { payload := l.take 6561
        address := (l.drop 6561).take 243
        value := (l.drop 6804).take 81
        obsolete_tag := (l.drop 6885).take 81
        timestamp := (l.drop 6966).take 27
        index := (l.drop 6993).take 27
        last_index := (l.drop 7020).take 27
        bundle := (l.drop 7047).take 243
        trunk := (l.drop 7290).take 243
        branch := (l.drop 7533).take 243
        tag := (l.drop 7776).take 81
        attachment_ts := (l.drop 7857).take 27
        attachment_lbts := (l.drop 7884).take 27
        attachment_ubts := (l.drop 7911).take 27
        nonce := (l.drop 7938).take 81 }
  else .error .invalidTransactionLength

theorem length_as_trits (tx : BundledTransaction) (h : WFTx tx) :
    (as_trits tx).length = 8019 := by
  obtain ⟨h1, h2, h3, h4, h5, h6, h7, h8, h9, h10, h11, h12, h13, h14, h15⟩ := h
  simp [as_trits, h1, h2, h3, h4, h5, h6, h7, h8, h9, h10, h11, h12, h13, h14,
    h15]

theorem from_trits_concat
    (p a v o ts ix lx b tr br tg ats lb ub nn : List Trit)
    (hp : p.length = 6561) (ha : a.length = 243) (hv : v.length = 81)
    (ho : o.length = 81) (hts : ts.length = 27) (hix : ix.length = 27)
    (hlx : lx.length = 27) (hb : b.length = 243) (htr : tr.length = 243)
    (hbr : br.length = 243) (htg : tg.length = 81) (hats : ats.length = 27)
    (hlb : lb.length = 27) (hub : ub.length = 27) (hnn : nn.length = 81) :
    from_trits
      (p ++ (a ++ (v ++ (o ++ (ts ++ (ix ++ (lx ++ (b ++ (tr ++ (br ++
        (tg ++ (ats ++ (lb ++ (ub ++ nn)))))))))))))) =
      .ok ⟨p, a, v, o, ts, ix, lx, b, tr, br, tg, ats, lb, ub, nn⟩ := by
  have d1 :
      (p ++ (a ++ (v ++ (o ++ (ts ++ (ix ++ (lx ++ (b ++ (tr ++ (br ++
        (tg ++ (ats ++ (lb ++ (ub ++ nn)))))))))))))).drop 6561 =
      a ++ (v ++ (o ++ (ts ++ (ix ++ (lx ++ (b ++ (tr ++ (br ++
        (tg ++ (ats ++ (lb ++ (ub ++ nn)))))))))))) := List.drop_left' hp
  have d2 :
      (p ++ (a ++ (v ++ (o ++ (ts ++ (ix ++ (lx ++ (b ++ (tr ++ (br ++
        (tg ++ (ats ++ (lb ++ (ub ++ nn)))))))))))))).drop 6804 =
      v ++ (o ++ (ts ++ (ix ++ (lx ++ (b ++ (tr ++ (br ++
        (tg ++ (ats ++ (lb ++ (ub ++ nn))))))))))) := by
    rw [show (6804 : Nat) = 6561 + 243 from rfl, ← List.drop_drop, d1]
    exact List.drop_left' ha
  have d3 :
      (p ++ (a ++ (v ++ (o ++ (ts ++ (ix ++ (lx ++ (b ++ (tr ++ (br ++
        (tg ++ (ats ++ (lb ++ (ub ++ nn)))))))))))))).drop 6885 =
      o ++ (ts ++ (ix ++ (lx ++ (b ++ (tr ++ (br ++
        (tg ++ (ats ++ (lb ++ (ub ++ nn)))))))))) := by
    rw [show (6885 : Nat) = 6804 + 81 from rfl, ← List.drop_drop, d2]
    exact List.drop_left' hv
  have d4 :
      (p ++ (a ++ (v ++ (o ++ (ts ++ (ix ++ (lx ++ (b ++ (tr ++ (br ++
        (tg ++ (ats ++ (lb ++ (ub ++ nn)))))))))))))).drop 6966 =
      ts ++ (ix ++ (lx ++ (b ++ (tr ++ (br ++
        (tg ++ (ats ++ (lb ++ (ub ++ nn))))))))) := by
    rw [show (6966 : Nat) = 6885 + 81 from rfl, ← List.drop_drop, d3]
    exact List.drop_left' ho
  have d5 :
      (p ++ (a ++ (v ++ (o ++ (ts ++ (ix ++ (lx ++ (b ++ (tr ++ (br ++
        (tg ++ (ats ++ (lb ++ (ub ++ nn)))))))))))))).drop 6993 =
      ix ++ (lx ++ (b ++ (tr ++ (br ++
        (tg ++ (ats ++ (lb ++ (ub ++ nn)))))))) := by
    rw [show (6993 : Nat) = 6966 + 27 from rfl, ← List.drop_drop, d4]
    exact List.drop_left' hts
  have d6 :
      (p ++ (a ++ (v ++ (o ++ (ts ++ (ix ++ (lx ++ (b ++ (tr ++ (br ++
        (tg ++ (ats ++ (lb ++ (ub ++ nn)))))))))))))).drop 7020 =
      lx ++ (b ++ (tr ++ (br ++ (tg ++ (ats ++ (lb ++ (ub ++ nn))))))) := by
    rw [show (7020 : Nat) = 6993 + 27 from rfl, ← List.drop_drop, d5]
    exact List.drop_left' hix
  have d7 :
      (p ++ (a ++ (v ++ (o ++ (ts ++ (ix ++ (lx ++ (b ++ (tr ++ (br ++
        (tg ++ (ats ++ (lb ++ (ub ++ nn)))))))))))))).drop 7047 =
      b ++ (tr ++ (br ++ (tg ++ (ats ++ (lb ++ (ub ++ nn)))))) := by
    rw [show (7047 : Nat) = 7020 + 27 from rfl, ← List.drop_drop, d6]
    exact List.drop_left' hlx
  have d8 :
      (p ++ (a ++ (v ++ (o ++ (ts ++ (ix ++ (lx ++ (b ++ (tr ++ (br ++
        (tg ++ (ats ++ (lb ++ (ub ++ nn)))))))))))))).drop 7290 =
      tr ++ (br ++ (tg ++ (ats ++ (lb ++ (ub ++ nn))))) := by
    rw [show (7290 : Nat) = 7047 + 243 from rfl, ← List.drop_drop, d7]
    exact List.drop_left' hb
  have d9 :
      (p ++ (a ++ (v ++ (o ++ (ts ++ (ix ++ (lx ++ (b ++ (tr ++ (br ++
        (tg ++ (ats ++ (lb ++ (ub ++ nn)))))))))))))).drop 7533 =
      br ++ (tg ++ (ats ++ (lb ++ (ub ++ nn)))) := by
    rw [show (7533 : Nat) = 7290 + 243 from rfl, ← List.drop_drop, d8]
    exact List.drop_left' htr
  have d10 :
      (p ++ (a ++ (v ++ (o ++ (ts ++ (ix ++ (lx ++ (b ++ (tr ++ (br ++
        (tg ++ (ats ++ (lb ++ (ub ++ nn)))))))))))))).drop 7776 =
      tg ++ (ats ++ (lb ++ (ub ++ nn))) := by
    rw [show (7776 : Nat) = 7533 + 243 from rfl, ← List.drop_drop, d9]
    exact List.drop_left' hbr
  have d11 :
      (p ++ (a ++ (v ++ (o ++ (ts ++ (ix ++ (lx ++ (b ++ (tr ++ (br ++
        (tg ++ (ats ++ (lb ++ (ub ++ nn)))))))))))))).drop 7857 =
      ats ++ (lb ++ (ub ++ nn)) := by
    rw [show (7857 : Nat) = 7776 + 81 from rfl, ← List.drop_drop, d10]
    exact List.drop_left' htg
  have d12 :
      (p ++ (a ++ (v ++ (o ++ (ts ++ (ix ++ (lx ++ (b ++ (tr ++ (br ++
        (tg ++ (ats ++ (lb ++ (ub ++ nn)))))))))))))).drop 7884 =
      lb ++ (ub ++ nn) := by
    rw [show (7884 : Nat) = 7857 + 27 from rfl, ← List.drop_drop, d11]
    exact List.drop_left' hats
  have d13 :
      (p ++ (a ++ (v ++ (o ++ (ts ++ (ix ++ (lx ++ (b ++ (tr ++ (br ++
        (tg ++ (ats ++ (lb ++ (ub ++ nn)))))))))))))).drop 7911 =
      ub ++ nn := by
    rw [show (7911 : Nat) = 7884 + 27 from rfl, ← List.drop_drop, d12]
    exact List.drop_left' hlb
  have d14 :
      (p ++ (a ++ (v ++ (o ++ (ts ++ (ix ++ (lx ++ (b ++ (tr ++ (br ++
        (tg ++ (ats ++ (lb ++ (ub ++ nn)))))))))))))).drop 7938 = nn := by
    rw [show (7938 : Nat) = 7911 + 27 from rfl, ← List.drop_drop, d13]
    exact List.drop_left' hub
  have L :
      (p ++ (a ++ (v ++ (o ++ (ts ++ (ix ++ (lx ++ (b ++ (tr ++ (br ++
        (tg ++ (ats ++ (lb ++ (ub ++ nn)))))))))))))).length = 8019 := by
    simp [hp, ha, hv, ho, hts, hix, hlx, hb, htr, hbr, htg, hats, hlb, hub,
      hnn]
  unfold from_trits
  rw [if_pos L]
  simp only [Except.ok.injEq, BundledTransaction.mk.injEq]
  refine ⟨?_, ?_, ?_, ?_, ?_, ?_, ?_, ?_, ?_, ?_, ?_, ?_, ?_, ?_, ?_⟩
  · exact List.take_left' hp
  · rw [d1]; exact List.take_left' ha
  · rw [d2]; exact List.take_left' hv
  · rw [d3]; exact List.take_left' ho
  · rw [d4]; exact List.take_left' hts
  · rw [d5]; exact List.take_left' hix
  · rw [d6]; exact List.take_left' hlx
  · rw [d7]; exact List.take_left' hb
  · rw [d8]; exact List.take_left' htr
  · rw [d9]; exact List.take_left' hbr
  · rw [d10]; exact List.take_left' htg
  · rw [d11]; exact List.take_left' hats
  · rw [d12]; exact List.take_left' hlb
  · rw [d13]; exact List.take_left' hub
  · rw [d14, ← hnn]; exact List.take_length nn

theorem as_trits_eq_nested (tx : BundledTransaction) :
    as_trits tx =
      tx.payload ++ (tx.address ++ (tx.value ++ (tx.obsolete_tag ++
        (tx.timestamp ++ (tx.index ++ (tx.last_index ++ (tx.bundle ++
        (tx.trunk ++ (tx.branch ++ (tx.tag ++ (tx.attachment_ts ++
        (tx.attachment_lbts ++ (tx.attachment_ubts ++ tx.nonce))))))))))))) := by
  simp [as_trits, List.append_assoc]

theorem from_trits_as_trits (tx : BundledTransaction) (h : WFTx tx) :
    from_trits (as_trits tx) = .ok tx := by
  obtain ⟨hp, ha, hv, ho, hts, hix, hlx, hb, htr, hbr, htg, hats, hlb, hub,
    hnn⟩ := h
  rw [as_trits_eq_nested]
  exact from_trits_concat tx.payload tx.address tx.value tx.obsolete_tag
    tx.timestamp tx.index tx.last_index tx.bundle tx.trunk tx.branch tx.tag
    tx.attachment_ts tx.attachment_lbts tx.attachment_ubts tx.nonce
    hp ha hv ho hts hix hlx hb htr hbr htg hats hlb hub hnn

theorem take_6804_as_trits (tx : BundledTransaction) (h : WFTx tx) :
    (as_trits tx).take 6804 = tx.payload ++ tx.address := by
  obtain ⟨hp, ha, _⟩ := h
  have hgrp : as_trits tx = (tx.payload ++ tx.address) ++
      (tx.value ++ (tx.obsolete_tag ++ (tx.timestamp ++ (tx.index ++
        (tx.last_index ++ (tx.bundle ++ (tx.trunk ++ (tx.branch ++
        (tx.tag ++ (tx.attachment_ts ++ (tx.attachment_lbts ++
        (tx.attachment_ubts ++ tx.nonce)))))))))))) := by
    simp [as_trits, List.append_assoc]
  rw [hgrp]
  exact List.take_left' (by simp [hp, ha])

theorem drop_7047_as_trits (tx : BundledTransaction) (h : WFTx tx) :
    (as_trits tx).drop 7047 =
      tx.bundle ++ (tx.trunk ++ (tx.branch ++ (tx.tag ++
        (tx.attachment_ts ++ (tx.attachment_lbts ++
        (tx.attachment_ubts ++ tx.nonce)))))) := by
  obtain ⟨hp, ha, hv, ho, hts, hix, hlx, _⟩ := h
  have hgrp : as_trits tx = (tx.payload ++ tx.address ++ tx.value ++
      tx.obsolete_tag ++ tx.timestamp ++ tx.index ++ tx.last_index) ++
      (tx.bundle ++ (tx.trunk ++ (tx.branch ++ (tx.tag ++
        (tx.attachment_ts ++ (tx.attachment_lbts ++
        (tx.attachment_ubts ++ tx.nonce))))))) := by
    simp [as_trits, List.append_assoc]
  rw [hgrp]
  exact List.drop_left' (by simp [hp, ha, hv, ho, hts, hix, hlx])

theorem split_243 (l : List Trit) (h : l.length = 243) :
    l = l.take 81 ++ ((l.drop 81).take 81 ++ ((l.drop 162).take 27 ++
      ((l.drop 189).take 27 ++ (l.drop 216).take 27))) := by
  have h216 : (l.drop 216).take 27 = l.drop 216 := by
    apply List.take_of_length_le
    simp [h]
  have h1 := List.take_append_drop 27 (l.drop 189)
  rw [List.drop_drop] at h1
  norm_num at h1
  have h2 := List.take_append_drop 27 (l.drop 162)
  rw [List.drop_drop] at h2
  norm_num at h2
  have h3 := List.take_append_drop 81 (l.drop 81)
  rw [List.drop_drop] at h3
  norm_num at h3
  have h4 := List.take_append_drop 81 l
  rw [h216, h1, h2, h3, h4]

/-- Transaction with the 243-trit span at raw offsets 6804..7047 (value,
obsolete tag, timestamp, current index, last index) replaced by the slices
of a mined essence part. -/
def splice_mined (tx : BundledTransaction) (latest : List Trit) :
    BundledTransaction :=
  { tx with
    value := latest.take 81
    obsolete_tag := (latest.drop 81).take 81
    timestamp := (latest.drop 162).take 27
    index := (latest.drop 189).take 27
    last_index := (latest.drop 216).take 27 }

/-- The per-transaction rebuild performed by update_essence_with_mined_essence:
the BundledTransactionBuilder chain keeps address, value, obsolete tag,
timestamp, index, last index, tag and attachment timestamp, and resets
payload, bundle, trunk, branch and nonce to zeros, the attachment lower
bound to the encoding of u64 MIN and the attachment upper bound to the
encoding of u64 MAX. -/
def rebuild_transaction (tx : BundledTransaction) : BundledTransaction :=
  { tx with
    payload := List.replicate 6561 Trit.zero
    bundle := List.replicate 243 Trit.zero
    trunk := List.replicate 243 Trit.zero
    branch := List.replicate 243 Trit.zero
    attachment_lbts := intToBalTrits 27 0
    attachment_ubts := intToBalTrits 27 (2 ^ 64 - 1)
    nonce := List.replicate 81 Trit.zero }

/-- Rebuild the last transaction from its raw representation with the span
at offsets 6804..7047 overwritten by the mined part (the buffer splice and
from_trits re-parse of update_essence_with_mined_essence). -/
def update_last_tx (last : BundledTransaction) (latest : List Trit) :
    Except Error BundledTransaction :=
  from_trits ((as_trits last).take 6804 ++ latest ++ (as_trits last).drop 7047)

/-- Update latest tx essence with mined essence part (bundle.rs).  Indexing
the last transaction of an empty list panics, as does copying a mined part
whose length is not the 243-trit span width. -/
def update_essence_with_mined_essence (prepared_txs : List BundledTransaction)
    (latest_tx_essence_part : List Trit) :
    PanicOutcome (Except Error (List BundledTransaction)) :=
  match prepared_txs.getLast? with
  | none => .panicked .indexOutOfBounds
  | some last =>
    if latest_tx_essence_part.length ≠ 243 then
      .panicked .copyFromLengthMismatch
    else
      match update_last_tx last latest_tx_essence_part with
      | .error e => .ret (.error e)
      | .ok tx2 =>
        .ret (.ok ((prepared_txs.set (prepared_txs.length - 1) tx2).map
          rebuild_transaction))

theorem WFTx_splice_mined (tx : BundledTransaction) (latest : List Trit)
    (h : WFTx tx) (hlen : latest.length = 243) :
    WFTx (splice_mined tx latest) := by
  obtain ⟨hp, ha, hv, ho, hts, hix, hlx, hrest⟩ := h
  refine ⟨hp, ha, ?_, ?_, ?_, ?_, ?_, hrest⟩ <;>
    simp [splice_mined, hlen]

theorem raw_splice_eq (tx : BundledTransaction) (latest : List Trit)
    (h : WFTx tx) (hlen : latest.length = 243) :
    (as_trits tx).take 6804 ++ latest ++ (as_trits tx).drop 7047 =
      as_trits (splice_mined tx latest) := by
  rw [take_6804_as_trits tx h, drop_7047_as_trits tx h]
  have hlat := split_243 latest hlen
  calc (tx.payload ++ tx.address) ++ latest ++
        (tx.bundle ++ (tx.trunk ++ (tx.branch ++ (tx.tag ++
          (tx.attachment_ts ++ (tx.attachment_lbts ++
          (tx.attachment_ubts ++ tx.nonce))))))) =
      (tx.payload ++ tx.address) ++
        (latest.take 81 ++ ((latest.drop 81).take 81 ++
          ((latest.drop 162).take 27 ++ ((latest.drop 189).take 27 ++
          (latest.drop 216).take 27)))) ++
        (tx.bundle ++ (tx.trunk ++ (tx.branch ++ (tx.tag ++
          (tx.attachment_ts ++ (tx.attachment_lbts ++
          (tx.attachment_ubts ++ tx.nonce))))))) := by rw [← hlat]
    _ = as_trits (splice_mined tx latest) := by
      simp [as_trits, splice_mined, List.append_assoc]

set_option maxHeartbeats 1000000 in
theorem update_essence_spec (txs : List BundledTransaction)
    (latest : List Trit) (hne : txs ≠ [])
    (hwf : ∀ tx ∈ txs, WFTx tx) (hlen : latest.length = 243) :
    update_essence_with_mined_essence txs latest =
      .ret (.ok ((txs.set (txs.length - 1)
        (splice_mined (txs.getLast hne) latest)).map rebuild_transaction)) := by
  have hlast : txs.getLast? = some (txs.getLast hne) :=
    List.getLast?_eq_getLast txs hne
  have hwfl : WFTx (txs.getLast hne) := hwf _ (List.getLast_mem hne)
  have hupd : update_last_tx (txs.getLast hne) latest =
      .ok (splice_mined (txs.getLast hne) latest) := by
    unfold update_last_tx
    rw [raw_splice_eq (txs.getLast hne) latest hwfl hlen]
    exact from_trits_as_trits _ (WFTx_splice_mined _ latest hwfl hlen)
  simp only [update_essence_with_mined_essence, hlast, hlen, ne_eq,
    not_true_eq_false, if_false, hupd]

/-- Essence of a transaction: the 486 hash-committed trits, address first
(bee BundledTransaction essence accessor). -/
def tx_essence (tx : BundledTransaction) : List Trit :=
  tx.address ++ tx.value ++ tx.obsolete_tag ++ tx.timestamp ++ tx.index ++
  tx.last_index

/-- Split each tx in two essence parts, first one is the address and the
second one includes value, obsoleteTag, currentIndex, lastIndex and
timestamp (bundle.rs get_bundle_essence_parts). -/
def get_bundle_essence_parts : List BundledTransaction → List String
  | [] => []
  | tx :: rest =>
    tritsToTryteString ((tx_essence tx).take 243) ::
      tritsToTryteString ((tx_essence tx).drop 243) ::
      get_bundle_essence_parts rest

/-- Get Trytes from an OutgoingBundleBuilder (bundle.rs
get_trytes_from_bundle): the argument is the transaction list produced by
the external seal/sign/attach/build pipeline on the prepared bundle; each
transaction raw representation is written into a fixed 8019-trit buffer and
rendered as trytes. -/
def get_trytes_from_bundle (built : List BundledTransaction) : List String :=
  built.map (fun tx => tritsToTryteString (as_trits tx))

/-- Spending input as handed to the migration functions (the response
module InputData): legacy 243-trit source address, u64 balance, u64
derivation index, u8 one-time-signature security level. -/
structure InputData where
  address : List Trit
  balance : Nat
  index : Nat
  security_lvl : Nat
deriving DecidableEq, Repr

/-- Input record built inside the migration functions: address, balance and
index of a spending input (security level dropped). -/
structure Input where
  address : List Trit
  balance : Nat
  index : Nat
deriving DecidableEq, Repr

/-- Field selection mapping InputData to Input (bundle.rs, the into_iter
map in create_migration_bundle and sign_migration_bundle). -/
def mkInput (i : InputData) : Input :=
  { address := i.address, balance := i.balance, index := i.index }

/-- Transfer handed to the transfer preparation collaborator. -/
structure Transfer where
  address : List Trit
  value : Nat
  message : Option String
  tag : Option String
deriving DecidableEq, Repr

/-- Modelled from the spec: the migration-address encoder of the crate
migration module (not among the two source files) maps a binary-ledger
Ed25519 address into the legacy ternary address representation used as the
transfer destination; embedded as a concrete deterministic conversion of
the address bytes to 243 trits. -/
def encode_migration_address (address : Nat) : List Trit :=
  intToBalTrits 243 (address : Int)

/-- Data this module passes to the external transfer-preparation
collaborator (PrepareTransfersBuilder build_unsigned): chosen security
level, the constructed transfer list and the deduplicated inputs.  The
collaborator turns these into the unsigned bundle and is outside this
repository. -/
structure PreparedTransfers where
  security : Nat
  transfers : List Transfer
  inputs : List Input
deriving DecidableEq, Repr

/-- Prepare migration bundle with address and inputs (bundle.rs
create_migration_bundle).  The u64 balance sum wraps modulo 2 ^ 64. -/
def create_migration_bundle (address : Nat) (inputs : List InputData) :
    Except Error PreparedTransfers :=
  let migration_address := encode_migration_address address
  match inputs with
  | [] => .error .noInputs
  | i0 :: rest =>
    if (i0 :: rest).all (fun i => i.security_lvl == i0.security_lvl) then
      let address_inputs := dedupAdjacent ((i0 :: rest).map mkInput)
      let total_value := (address_inputs.map Input.balance).sum % 2 ^ 64
      .ok { security := i0.security_lvl
            transfers := [{ address := migration_address,
                            value := total_value,
                            message := none, tag := none }]
            inputs := address_inputs }
    else .error .securityLevelMismatch

/-- One-time-signature security level of the bee signing crate. -/
inductive WotsSecurityLevel where
  | low
  | medium
  | high
deriving DecidableEq, Repr

/-- The (index, address, security level) triples sign_migration_bundle
passes to the external signing pipeline, built from the deduplicated
inputs. -/
def sign_inputs_mapped (address_inputs : List Input)
    (security_level : WotsSecurityLevel) :
    List (Nat × List Trit × WotsSecurityLevel) :=
  address_inputs.map (fun i => (i.index, i.address, security_level))

/-- Sign a prepared bundle (bundle.rs sign_migration_bundle).  The external
seal/sign/attach_local/build pipeline of the bee OutgoingBundleBuilder is
outside this repository; its built transaction list is the oracle argument
signed_txs, and this embedding covers the validation around it: emptiness
and uniform security level up front (an out-of-range first security level
panics before the uniformity check), then the address-count and
address-membership checks on the built transactions, and the final
reversal.  The count check subtracts one from a usize length, which for an
empty built bundle wraps in release mode and fails the comparison; Nat
truncated subtraction gives the same error outcome there. -/
def sign_migration_bundle (signed_txs : List BundledTransaction)
    (inputs : List InputData) :
    PanicOutcome (Except Error (List BundledTransaction)) :=
  match inputs with
  | [] => .ret (.error .noInputs)
  | i0 :: rest =>
    let cont := fun (security_level : WotsSecurityLevel) =>
      if (i0 :: rest).all (fun i => i.security_lvl == i0.security_lvl) then
        let address_inputs := dedupAdjacent ((i0 :: rest).map mkInput)
        let mapped := sign_inputs_mapped address_inputs security_level
        let input_addresses := mapped.map (fun t => t.2.1)
        let bundle_addresses :=
          dedupAdjacent (signed_txs.map (fun tx => tx.address))
        if input_addresses.length ≠ bundle_addresses.length - 1 then
          PanicOutcome.ret (Except.error Error.inputAddressCountMismatch)
        else if input_addresses.all (fun a => bundle_addresses.contains a) then
          PanicOutcome.ret (Except.ok signed_txs.reverse)
        else PanicOutcome.ret (Except.error Error.missingInputAddress)
      else PanicOutcome.ret (Except.error Error.securityLevelMismatch)
    if i0.security_lvl = 1 then cont .low
    else if i0.security_lvl = 2 then cont .medium
    else if i0.security_lvl = 3 then cont .high
    else .panicked .invalidSecurityLevel

/-- Configuration handed to the external bundle miner and recoverer by mine
(bundle.rs): search offset, per-transaction essence parts re-encoded as
trits, security level, allowed count of 13-free fragments, decoded known
bundle hashes, worker and core thread count, timeout, plus the decoy
transactions returned to the caller. -/
structure MinerConfig where
  offset : Int
  essences : List (List Trit)
  security_level : Nat
  num_13_free_fragments : Nat
  known_bundle_hashes : List (List Trit)
  worker_count : Nat
  mining_timeout : Nat
  decoy_txs : List BundledTransaction
deriving DecidableEq, Repr

/-- Mine a bundle essence (bundle.rs mine) up to the handoff to the
external miner crate: the decoy seal/rand-sign/attach/build pipeline is
outside this repository and its built transaction list is the oracle
argument decoy_built; num_cpus is the machine core count.  The u8 product
security_level * 27 wraps modulo 2 ^ 8. -/
def mine (decoy_built : List BundledTransaction) (security_level : Nat)
    (ledger : Bool) (spent_bundle_hashes : List String) (timeout : Nat)
    (offset : Int) (num_cpus : Nat) : Except Error MinerConfig :=
  if spent_bundle_hashes.isEmpty then
    .error .cannotMineWithoutSpentBundleHashes
  else
    let txs := decoy_built
    let essence_parts := get_bundle_essence_parts txs
    match essence_parts.mapM tryteStringToTrits with
    | .error e => .error e
    | .ok essences =>
      let num13 := if ledger then 81 else security_level * 27 % 2 ^ 8
      let worker_count := if num_cpus > 1 then num_cpus - 1 else 1
      match spent_bundle_hashes.mapM tryteStringToTrits with
      | .error e => .error e
      | .ok hashes =>
        .ok { offset := offset
              essences := essences
              security_level := security_level
              num_13_free_fragments := num13
              known_bundle_hashes := hashes
              worker_count := worker_count
              mining_timeout := timeout
              decoy_txs := txs }

/-- Hardening bit of a BIP32 path component (address.rs HARDEND). -/
def HARDEND : Nat := 2 ^ 31

/-- Seed variants of the signing crate: Ed25519 (binary ledger) or the
legacy ternary scheme; operations requiring one variant panic on the
other. -/
inductive Seed where
  | ed25519 (seedValue : Nat)
  | legacy (seedValue : Nat)
deriving DecidableEq, Repr

/-- Modelled from the spec: the account_path macro (crate root, not among
the two source files) builds the base hardened path from the account
index. -/
def account_path (account_index : Nat) : List Nat :=
  [44 + HARDEND, 4218 + HARDEND, account_index + HARDEND]

/-- Modelled from the spec: the external Ed25519 key derivation primitive
(seed plus hierarchical path to public key); a deterministic stand-in
pairing its arguments. -/
def derive_public_key (seedValue : Nat) (path : List Nat) : Nat :=
  Nat.pair seedValue (path.foldl (fun acc n => Nat.pair acc n) 0)

/-- Modelled from the spec: the 256-bit variable-output cryptographic hash
compressing a public key into address bytes; a deterministic stand-in. -/
def blake2b_256 (publicKey : Nat) : Nat :=
  Nat.pair 2 publicKey

/-- Binary-ledger address: 32-byte hash of a derived public key. -/
inductive BeeAddress where
  | ed25519 (hashBytes : Nat)
deriving DecidableEq, Repr

/-- One derivation step (address.rs generate_address): push the hardened
chain flag and hardened index, derive and hash, pop both components.  The
returned pair carries the address and the path as left behind by the two
pops. -/
def generate_address (seedValue : Nat) (path : List Nat) (index : Nat)
    (internal : Bool) : BeeAddress × List Nat :=
  let path1 := path ++ [(if internal then 1 else 0) + HARDEND,
    index + HARDEND]
  let addr := BeeAddress.ed25519 (blake2b_256
    (derive_public_key seedValue path1))
  (addr, path1.dropLast.dropLast)

/-- The derivation loop of GetAddressesBuilder get, threading the mutable
path value through the external and internal derivation of each index. -/
def get_addresses_loop (seedValue : Nat) (path : List Nat) :
    Nat → Nat → List (BeeAddress × Bool)
  | _, 0 => []
  | start, n + 1 =>
    let r1 := generate_address seedValue path start false
    let r2 := generate_address seedValue r1.2 start true
    (r1.1, false) :: (r2.1, true) ::
      get_addresses_loop seedValue r2.2 (start + 1) n

/-- Consume the builder and get the vector of addresses (address.rs
GetAddressesBuilder get): missing account index is a MissingParameter
error, a non-Ed25519 seed panics, the index range defaults to 0..20. -/
def GetAddressesBuilder.get (seed : Seed) (account_index : Option Nat)
    (range : Option (Nat × Nat)) :
    PanicOutcome (Except Error (List (BeeAddress × Bool))) :=
  match account_index with
  | none => .ret (.error .missingParameterAccountIndex)
  | some i =>
    let path := account_path i
    let r := range.getD (0, 20)
    match seed with
    | .ed25519 s => .ret (.ok (get_addresses_loop s path r.1 (r.2 - r.1)))
    | _ => .panicked .unsupportedSeedScheme

/-- Path-independent form of one derived address. -/
def derived_address (seedValue : Nat) (account_index : Nat) (index : Nat)
    (internal : Bool) : BeeAddress :=
  BeeAddress.ed25519 (blake2b_256 (derive_public_key seedValue
    (account_path account_index ++ [(if internal then 1 else 0) + HARDEND,
      index + HARDEND])))

/-- Closed form of the derivation loop output: external then internal
address for each index of the range. -/
def expected_addresses (seedValue : Nat) (account_index : Nat) :
    Nat → Nat → List (BeeAddress × Bool)
  | _, 0 => []
  | start, n + 1 =>
    (derived_address seedValue account_index start false, false) ::
      (derived_address seedValue account_index start true, true) ::
      expected_addresses seedValue account_index (start + 1) n

theorem generate_address_path (s : Nat) (path : List Nat) (i : Nat)
    (b : Bool) : (generate_address s path i b).2 = path := by
  unfold generate_address
  simp only
  rw [show path ++ [(if b then 1 else 0) + HARDEND, i + HARDEND] =
    (path ++ [(if b then 1 else 0) + HARDEND]) ++ [i + HARDEND] by
      simp [List.append_assoc]]
  rw [List.dropLast_concat, List.dropLast_concat]

theorem get_addresses_loop_eq (s : Nat) (i : Nat) :
    ∀ (n start : Nat),
      get_addresses_loop s (account_path i) start n =
        expected_addresses s i start n := by
  intro n
  induction n with
  | zero => intro start; rfl
  | succ n ih =>
    intro start
    have h1 := generate_address_path s (account_path i) start false
    simp only [get_addresses_loop, expected_addresses, h1]
    have h2 := generate_address_path s (account_path i) start true
    rw [h2, ih (start + 1)]
    simp [generate_address, derived_address]

/-- Concrete 243-trit legacy address used by the concrete instances below. -/
def addrA : List Trit := Trit.pos :: List.replicate 242 Trit.zero

/-- Second concrete 243-trit legacy address, distinct from addrA. -/
def addrB : List Trit := Trit.neg :: List.replicate 242 Trit.zero

/-- Concrete well-formed transaction with the given address and all other
fields zeroed. -/
def mkTx (addr : List Trit) : BundledTransaction :=
  { payload := List.replicate 6561 Trit.zero
    address := addr
    value := List.replicate 81 Trit.zero
    obsolete_tag := List.replicate 81 Trit.zero
    timestamp := List.replicate 27 Trit.zero
    index := List.replicate 27 Trit.zero
    last_index := List.replicate 27 Trit.zero
    bundle := List.replicate 243 Trit.zero
    trunk := List.replicate 243 Trit.zero
    branch := List.replicate 243 Trit.zero
    tag := List.replicate 81 Trit.zero
    attachment_ts := List.replicate 27 Trit.zero
    attachment_lbts := List.replicate 27 Trit.zero
    attachment_ubts := List.replicate 27 Trit.zero
    nonce := List.replicate 81 Trit.zero }

theorem length_addrA : addrA.length = 243 := by
  rw [addrA, List.length_cons, List.length_replicate]

theorem length_addrB : addrB.length = 243 := by
  rw [addrB, List.length_cons, List.length_replicate]

theorem WFTx_mkTx (addr : List Trit) (h : addr.length = 243) :
    WFTx (mkTx addr) := by
  unfold WFTx mkTx
  exact ⟨List.length_replicate _ _, h, List.length_replicate _ _,
    List.length_replicate _ _, List.length_replicate _ _,
    List.length_replicate _ _, List.length_replicate _ _,
    List.length_replicate _ _, List.length_replicate _ _,
    List.length_replicate _ _, List.length_replicate _ _,
    List.length_replicate _ _, List.length_replicate _ _,
    List.length_replicate _ _, List.length_replicate _ _⟩

theorem WFTx_of_mem_single (tx0 : BundledTransaction) (h : WFTx tx0) :
    ∀ tx ∈ [tx0], WFTx tx := by
  intro tx htx
  simp only [List.mem_singleton] at htx
  rw [htx]
  exact h

theorem input_addresses_map (l : List Input) (lvl : WotsSecurityLevel) :
    (sign_inputs_mapped l lvl).map (fun t => t.2.1) = l.map Input.address := by
  simp [sign_inputs_mapped]

theorem sign_success_inv (txs : List BundledTransaction)
    (inputs : List InputData) (out : List BundledTransaction)
    (h : sign_migration_bundle txs inputs = .ret (.ok out)) :
    out = txs.reverse ∧ inputs ≠ [] ∧
    (dedupAdjacent (inputs.map mkInput)).length =
      (dedupAdjacent (txs.map (fun tx => tx.address))).length - 1 ∧
    ∀ i ∈ dedupAdjacent (inputs.map mkInput),
      i.address ∈ dedupAdjacent (txs.map (fun tx => tx.address)) := by
  cases inputs with
  | nil => simp [sign_migration_bundle] at h
  | cons i0 rest =>
    unfold sign_migration_bundle at h
    simp only [] at h
    split at h
    · split at h
      · split at h
        · simp at h
        · split at h
          · obtain ⟨rfl⟩ : txs.reverse = out := by
              simpa using h
            refine ⟨rfl, by simp, ?_, ?_⟩
            · rename_i hcond _
              rw [input_addresses_map] at hcond
              simp only [List.length_map, ne_eq, not_not] at hcond
              exact hcond
            · rename_i hall
              rw [input_addresses_map] at hall
              rw [List.all_eq_true] at hall
              intro i hi
              have := hall i.address (List.mem_map_of_mem Input.address hi)
              simpa [List.contains, List.elem_iff] using this
          · simp at h
      · simp [sign_migration_bundle] at h
    · split at h
      · split at h
        · split at h
          · simp at h
          · split at h
            · obtain ⟨rfl⟩ : txs.reverse = out := by
                simpa using h
              refine ⟨rfl, by simp, ?_, ?_⟩
              · rename_i hcond _
                rw [input_addresses_map] at hcond
                simp only [List.length_map, ne_eq, not_not] at hcond
                exact hcond
              · rename_i hall
                rw [input_addresses_map] at hall
                rw [List.all_eq_true] at hall
                intro i hi
                have := hall i.address (List.mem_map_of_mem Input.address hi)
                simpa [List.contains, List.elem_iff] using this
            · simp at h
        · simp at h
      · split at h
        · split at h
          · split at h
            · simp at h
            · split at h
              · obtain ⟨rfl⟩ : txs.reverse = out := by
                  simpa using h
                refine ⟨rfl, by simp, ?_, ?_⟩
                · rename_i hcond _
                  rw [input_addresses_map] at hcond
                  simp only [List.length_map, ne_eq, not_not] at hcond
                  exact hcond
                · rename_i hall
                  rw [input_addresses_map] at hall
                  rw [List.all_eq_true] at hall
                  intro i hi
                  have := hall i.address (List.mem_map_of_mem Input.address hi)
                  simpa [List.contains, List.elem_iff] using this
              · simp at h
          · simp at h
        · simp at h

theorem sign_success_of_checks (txs : List BundledTransaction)
    (i0 : InputData) (rest : List InputData)
    (hlvl : i0.security_lvl = 1 ∨ i0.security_lvl = 2 ∨ i0.security_lvl = 3)
    (huni : ((i0 :: rest).all fun i => i.security_lvl == i0.security_lvl)
      = true)
    (hcnt : (dedupAdjacent ((i0 :: rest).map mkInput)).length =
      (dedupAdjacent (txs.map (fun tx => tx.address))).length - 1)
    (hmem : ∀ i ∈ dedupAdjacent ((i0 :: rest).map mkInput),
      i.address ∈ dedupAdjacent (txs.map (fun tx => tx.address))) :
    sign_migration_bundle txs (i0 :: rest) = .ret (.ok txs.reverse) := by
  have hall : ∀ lvl : WotsSecurityLevel,
      (((sign_inputs_mapped (dedupAdjacent ((i0 :: rest).map mkInput))
        lvl).map (fun t => t.2.1)).all
        (fun a => (dedupAdjacent (txs.map (fun tx => tx.address))).contains a))
        = true := by
    intro lvl
    rw [input_addresses_map, List.all_eq_true]
    intro a ha
    rw [List.mem_map] at ha
    obtain ⟨i, hi, rfl⟩ := ha
    simpa [List.contains, List.elem_iff] using hmem i hi
  have hlen : ∀ lvl : WotsSecurityLevel,
      ¬(((sign_inputs_mapped (dedupAdjacent ((i0 :: rest).map mkInput))
        lvl).map (fun t => t.2.1)).length ≠
        (dedupAdjacent (txs.map (fun tx => tx.address))).length - 1) := by
    intro lvl
    rw [input_addresses_map]
    simp only [ne_eq, not_not, List.length_map]
    exact hcnt
  unfold sign_migration_bundle
  simp only []
  rcases hlvl with h | h | h
  · rw [if_pos h, if_pos huni, if_neg (hlen .low), if_pos (hall .low)]
  · rw [if_neg (show ¬i0.security_lvl = 1 by omega), if_pos h, if_pos huni,
      if_neg (hlen .medium), if_pos (hall .medium)]
  · rw [if_neg (show ¬i0.security_lvl = 1 by omega),
      if_neg (show ¬i0.security_lvl = 2 by omega), if_pos h, if_pos huni,
      if_neg (hlen .high), if_pos (hall .high)]

/-- Concrete inputs for the spec example of C1. -/
def c1InA : InputData :=
  { address := addrA, balance := 1000000, index := 0, security_lvl := 2 }

/-- Second concrete input for the spec example of C1. -/
def c1InB : InputData :=
  { address := addrB, balance := 2500000, index := 1, security_lvl := 2 }

/-- C1: for every non-empty input batch of uniform security level whose
deduplicated balance sum fits in u64, create_migration_bundle passes the
transfer preparation collaborator exactly one Transfer, addressed to the
encoded migration address, whose value is the sum of the deduplicated
balances, together with the deduplicated inputs themselves: no value is
created or destroyed. -/
theorem create_migration_transfer_conservation
    (address : Nat) (i0 : InputData) (rest : List InputData)
    (huni : ((i0 :: rest).all fun i => i.security_lvl == i0.security_lvl)
      = true)
    (hsum : ((dedupAdjacent ((i0 :: rest).map mkInput)).map Input.balance).sum
      < 2 ^ 64) :
    create_migration_bundle address (i0 :: rest) =
      .ok { security := i0.security_lvl
            transfers := [{ address := encode_migration_address address
                            value := ((dedupAdjacent ((i0 :: rest).map
                              mkInput)).map Input.balance).sum
                            message := none
                            tag := none }]
            inputs := dedupAdjacent ((i0 :: rest).map mkInput) } := by
  unfold create_migration_bundle
  simp only []
  rw [if_pos huni, Nat.mod_eq_of_lt hsum]

/-- Witness for C1 at the spec example: balances 1000000 and 2500000 on two
distinct addresses, security level 2, transfer value 3500000. -/
theorem create_migration_transfer_conservation_witness :
    create_migration_bundle 7 [c1InA, c1InB] =
      .ok { security := 2
            transfers := [{ address := encode_migration_address 7
                            value := 3500000
                            message := none
                            tag := none }]
            inputs := [mkInput c1InA, mkInput c1InB] } := by
  have h := create_migration_transfer_conservation 7 c1InA [c1InB]
    (by decide) (by decide)
  rw [h]
  decide

/-- Concrete input with security level 1 on address addrA. -/
def c2InA : InputData :=
  { address := addrA, balance := 1, index := 0, security_lvl := 1 }

/-- Concrete input with security level 1 on address addrB. -/
def c2InB : InputData :=
  { address := addrB, balance := 1, index := 1, security_lvl := 1 }

/-- Concrete built transaction list whose addresses are A, B, A: the
non-adjacent repeat survives the adjacent dedup of the validation. -/
def c2Txs : List BundledTransaction := [mkTx addrA, mkTx addrB, mkTx addrA]

/-- C2 (amended): a successful sign_migration_bundle run returns the built
transactions reversed, and the code checks exactly that the
adjacent-deduplicated list of bundle addresses is one longer than the
deduplicated input list and that every deduplicated input address occurs
among the bundle addresses; these checks are also sufficient, and a missing
input address always forces a migration error.  The code cannot verify the
presence of the migration target address, and non-adjacent address repeats
can satisfy the count check, so the distinct-address set of a successful
run need not equal the input addresses plus the migration address. -/
theorem sign_migration_address_validation :
    (∀ (txs : List BundledTransaction) (inputs : List InputData)
      (out : List BundledTransaction),
      sign_migration_bundle txs inputs = .ret (.ok out) →
        out = txs.reverse ∧ inputs ≠ [] ∧
        (dedupAdjacent (inputs.map mkInput)).length =
          (dedupAdjacent (txs.map (fun tx => tx.address))).length - 1 ∧
        ∀ i ∈ dedupAdjacent (inputs.map mkInput),
          i.address ∈ dedupAdjacent (txs.map (fun tx => tx.address))) ∧
    (∀ (txs : List BundledTransaction) (i0 : InputData)
      (rest : List InputData),
      (i0.security_lvl = 1 ∨ i0.security_lvl = 2 ∨ i0.security_lvl = 3) →
      ((i0 :: rest).all fun i => i.security_lvl == i0.security_lvl) = true →
      (dedupAdjacent ((i0 :: rest).map mkInput)).length =
        (dedupAdjacent (txs.map (fun tx => tx.address))).length - 1 →
      (∀ i ∈ dedupAdjacent ((i0 :: rest).map mkInput),
        i.address ∈ dedupAdjacent (txs.map (fun tx => tx.address))) →
      sign_migration_bundle txs (i0 :: rest) = .ret (.ok txs.reverse)) ∧
    (∀ (txs : List BundledTransaction) (inputs : List InputData),
      (∃ i ∈ dedupAdjacent (inputs.map mkInput),
        i.address ∉ dedupAdjacent (txs.map (fun tx => tx.address))) →
      ∀ out, sign_migration_bundle txs inputs ≠ .ret (.ok out)) := by
  refine ⟨fun txs inputs out h => sign_success_inv txs inputs out h,
    fun txs i0 rest h1 h2 h3 h4 =>
      sign_success_of_checks txs i0 rest h1 h2 h3 h4, ?_⟩
  intro txs inputs hmiss out hok
  obtain ⟨i, hi, hni⟩ := hmiss
  exact hni ((sign_success_inv txs inputs out hok).2.2.2 i hi)

/-- Witness for C2: a concrete successful signing run obtained from the
sufficiency direction of the validation theorem. -/
theorem sign_migration_address_validation_witness :
    sign_migration_bundle c2Txs [c2InA, c2InB] = .ret (.ok c2Txs.reverse) :=
  sign_migration_address_validation.2.1 c2Txs c2InA [c2InB]
    (Or.inl rfl) (by decide) (by decide) (by decide)

/-- Counterexample to C2 as stated: this signing run over the two distinct
input addresses A and B succeeds although the built transactions carry the
addresses A, B, A, whose distinct-address count is 2 and not N + 1 = 3; in
particular no third (migration target) address is present, yet no migration
error is raised, because the adjacent dedup leaves the repeated A in place
and the length check still passes. -/
theorem sign_migration_address_set_counterexample :
    sign_migration_bundle c2Txs [c2InA, c2InB] = .ret (.ok c2Txs.reverse) ∧
    ((c2Txs.map (fun tx => tx.address)).dedup.length ≠
      ([c2InA, c2InB].map (fun i => i.address)).dedup.length + 1) := by
  constructor
  · exact sign_success_of_checks c2Txs c2InA [c2InB]
      (Or.inl rfl) (by decide) (by decide) (by decide)
  · decide

/-- Concrete input on address addrA with balance 5. -/
def c3InA : InputData :=
  { address := addrA, balance := 5, index := 0, security_lvl := 1 }

/-- Concrete input on address addrB with balance 7. -/
def c3InB : InputData :=
  { address := addrB, balance := 7, index := 1, security_lvl := 1 }

/-- C3 (amended): the two migration functions deduplicate with Rust Vec
dedup semantics, which collapses only adjacent duplicate inputs (equal
address, balance and index); non-adjacent duplicates are retained by that
step and hence counted in the balance sum and in the signing map.  The
result of the dedup step never carries two adjacent equal inputs, and any
list free of adjacent equal inputs passes through it unchanged. -/
theorem migration_dedup_adjacent_semantics
    (address : Nat) (signed_txs : List BundledTransaction)
    (i0 : InputData) (rest : List InputData)
    (huni : ((i0 :: rest).all fun i => i.security_lvl == i0.security_lvl)
      = true) :
    (∀ p, create_migration_bundle address (i0 :: rest) = .ok p →
      p.inputs = dedupAdjacent ((i0 :: rest).map mkInput) ∧
      p.transfers.map Transfer.value =
        [((dedupAdjacent ((i0 :: rest).map mkInput)).map Input.balance).sum
          % 2 ^ 64]) ∧
    List.Chain' (fun x y => x ≠ y)
      (dedupAdjacent ((i0 :: rest).map mkInput)) ∧
    (List.Chain' (fun x y => x ≠ y) ((i0 :: rest).map mkInput) →
      dedupAdjacent ((i0 :: rest).map mkInput) = (i0 :: rest).map mkInput) ∧
    ((i0.security_lvl = 1 ∨ i0.security_lvl = 2 ∨ i0.security_lvl = 3) →
      (dedupAdjacent ((i0 :: rest).map mkInput)).length ≠
        (dedupAdjacent (signed_txs.map (fun tx => tx.address))).length - 1 →
      sign_migration_bundle signed_txs (i0 :: rest) =
        .ret (.error .inputAddressCountMismatch)) := by
  refine ⟨?_, dedupAdjacent_chain _, dedupAdjacent_eq_self _, ?_⟩
  · intro p hp
    unfold create_migration_bundle at hp
    simp only [] at hp
    rw [if_pos huni] at hp
    simp only [Except.ok.injEq] at hp
    subst hp
    exact ⟨rfl, rfl⟩
  · intro hlvl hcnt
    have hc : ∀ lvl : WotsSecurityLevel,
        (((sign_inputs_mapped (dedupAdjacent ((i0 :: rest).map mkInput))
          lvl).map (fun t => t.2.1)).length ≠
          (dedupAdjacent (signed_txs.map (fun tx => tx.address))).length
            - 1) := by
      intro lvl
      rw [input_addresses_map]
      simpa [List.length_map] using hcnt
    unfold sign_migration_bundle
    simp only []
    rcases hlvl with h | h | h
    · rw [if_pos h, if_pos huni, if_pos (hc .low)]
    · rw [if_neg (show ¬i0.security_lvl = 1 by omega), if_pos h,
        if_pos huni, if_pos (hc .medium)]
    · rw [if_neg (show ¬i0.security_lvl = 1 by omega),
        if_neg (show ¬i0.security_lvl = 2 by omega), if_pos h,
        if_pos huni, if_pos (hc .high)]

/-- Witness for C3 (amended) at a concrete batch with a non-adjacent
duplicate. -/
theorem migration_dedup_adjacent_semantics_witness :
    List.Chain' (fun x y => x ≠ y)
      (dedupAdjacent ([c3InA, c3InB, c3InA].map mkInput)) ∧
    sign_migration_bundle [] [c3InA, c3InB, c3InA] =
      .ret (.error .inputAddressCountMismatch) := by
  have h := migration_dedup_adjacent_semantics 7 [] c3InA [c3InB, c3InA]
    (by decide)
  exact ⟨h.2.1, h.2.2.2 (Or.inl rfl) (by decide)⟩

/-- Counterexample to C3 as stated: in the batch [a, b, a] the duplicate of
input a is not adjacent and is not removed: the prepared inputs still
contain a twice, and its balance 5 is summed twice, giving transfer value
17 instead of the 12 a full deduplication would give. -/
theorem migration_dedup_counterexample :
    create_migration_bundle 7 [c3InA, c3InB, c3InA] =
      .ok { security := 1
            transfers := [{ address := encode_migration_address 7
                            value := 17
                            message := none
                            tag := none }]
            inputs := [mkInput c3InA, mkInput c3InB, mkInput c3InA] } ∧
    ¬ ([mkInput c3InA, mkInput c3InB, mkInput c3InA] : List Input).Nodup := by
  exact ⟨by decide, by decide⟩

/-- Concrete input of security level 1 for C4. -/
def c4InA : InputData :=
  { address := addrA, balance := 1, index := 0, security_lvl := 1 }

/-- Concrete input of security level 2 for C4. -/
def c4InB : InputData :=
  { address := addrB, balance := 1, index := 1, security_lvl := 2 }

/-- C4: both create_migration_bundle and sign_migration_bundle fail with
the no-inputs migration error on an empty batch, and with the
security-level-mismatch migration error on any batch of valid levels that
contains two inputs with different security levels, producing neither a
bundle nor signed transactions. -/
theorem migration_rejects_empty_and_mixed_levels
    (address : Nat) (signed_txs : List BundledTransaction)
    (inputs : List InputData) :
    create_migration_bundle address [] = .error .noInputs ∧
    sign_migration_bundle signed_txs [] = .ret (.error .noInputs) ∧
    ((∀ i ∈ inputs,
        i.security_lvl = 1 ∨ i.security_lvl = 2 ∨ i.security_lvl = 3) →
      (∃ x ∈ inputs, ∃ y ∈ inputs, x.security_lvl ≠ y.security_lvl) →
      create_migration_bundle address inputs =
        .error .securityLevelMismatch ∧
      sign_migration_bundle signed_txs inputs =
        .ret (.error .securityLevelMismatch)) := by
  refine ⟨rfl, rfl, ?_⟩
  intro hv hmix
  obtain ⟨x, hx, y, hy, hxy⟩ := hmix
  cases inputs with
  | nil => simp at hx
  | cons i0 rest =>
    have hall : ((i0 :: rest).all fun i => i.security_lvl == i0.security_lvl)
        = false := by
      by_contra hc
      rw [Bool.not_eq_false] at hc
      have h1 := List.all_eq_true.mp hc x hx
      have h2 := List.all_eq_true.mp hc y hy
      simp only [beq_iff_eq] at h1 h2
      exact hxy (h1.trans h2.symm)
    constructor
    · unfold create_migration_bundle
      simp only []
      rw [if_neg (by simp [hall])]
    · rcases hv i0 (by simp) with h | h | h
      · unfold sign_migration_bundle
        simp only []
        rw [if_pos h, if_neg (by simp [hall])]
      · unfold sign_migration_bundle
        simp only []
        rw [if_neg (show ¬i0.security_lvl = 1 by omega), if_pos h,
          if_neg (by simp [hall])]
      · unfold sign_migration_bundle
        simp only []
        rw [if_neg (show ¬i0.security_lvl = 1 by omega),
          if_neg (show ¬i0.security_lvl = 2 by omega), if_pos h,
          if_neg (by simp [hall])]

/-- Witness for C4 at a concrete mixed-level batch. -/
theorem migration_rejects_empty_and_mixed_levels_witness :
    create_migration_bundle 0 [c4InA, c4InB] =
      .error .securityLevelMismatch ∧
    sign_migration_bundle [] [c4InA, c4InB] =
      .ret (.error .securityLevelMismatch) :=
  (migration_rejects_empty_and_mixed_levels 0 [] [c4InA, c4InB]).2.2
    (by decide) (by decide)

/-- C5 (amended): with a non-empty well-formed transaction list and a
243-trit mined part, finalization overwrites the raw span 6804..7047 of the
last transaction with the mined part and rebuilds every transaction:
address, value, obsolete tag, timestamp, current and last index, tag and
attachment timestamp are preserved (the overwritten span supplying the five
value fields of the last transaction), while payload, bundle, trunk, branch
and nonce are reset to zeros and the attachment bounds to the u64 MIN and
MAX encodings — those placeholder fields are not kept bit-identical. -/
theorem finalize_mined_essence_frame (txs : List BundledTransaction)
    (latest : List Trit) (hne : txs ≠ [])
    (hwf : ∀ tx ∈ txs, WFTx tx) (hlen : latest.length = 243) :
    update_essence_with_mined_essence txs latest =
      .ret (.ok ((txs.set (txs.length - 1)
        (splice_mined (txs.getLast hne) latest)).map rebuild_transaction)) ∧
    (∀ tx : BundledTransaction,
      (rebuild_transaction tx).address = tx.address ∧
      (rebuild_transaction tx).value = tx.value ∧
      (rebuild_transaction tx).obsolete_tag = tx.obsolete_tag ∧
      (rebuild_transaction tx).timestamp = tx.timestamp ∧
      (rebuild_transaction tx).index = tx.index ∧
      (rebuild_transaction tx).last_index = tx.last_index ∧
      (rebuild_transaction tx).tag = tx.tag ∧
      (rebuild_transaction tx).attachment_ts = tx.attachment_ts ∧
      (rebuild_transaction tx).payload = List.replicate 6561 Trit.zero ∧
      (rebuild_transaction tx).bundle = List.replicate 243 Trit.zero ∧
      (rebuild_transaction tx).trunk = List.replicate 243 Trit.zero ∧
      (rebuild_transaction tx).branch = List.replicate 243 Trit.zero ∧
      (rebuild_transaction tx).nonce = List.replicate 81 Trit.zero ∧
      (rebuild_transaction tx).attachment_lbts = intToBalTrits 27 0 ∧
      (rebuild_transaction tx).attachment_ubts =
        intToBalTrits 27 (2 ^ 64 - 1)) ∧
    (∀ tx : BundledTransaction,
      (splice_mined tx latest).payload = tx.payload ∧
      (splice_mined tx latest).address = tx.address ∧
      (splice_mined tx latest).bundle = tx.bundle ∧
      (splice_mined tx latest).trunk = tx.trunk ∧
      (splice_mined tx latest).branch = tx.branch ∧
      (splice_mined tx latest).tag = tx.tag ∧
      (splice_mined tx latest).attachment_ts = tx.attachment_ts ∧
      (splice_mined tx latest).attachment_lbts = tx.attachment_lbts ∧
      (splice_mined tx latest).attachment_ubts = tx.attachment_ubts ∧
      (splice_mined tx latest).nonce = tx.nonce ∧
      (splice_mined tx latest).value = latest.take 81 ∧
      (splice_mined tx latest).obsolete_tag = (latest.drop 81).take 81 ∧
      (splice_mined tx latest).timestamp = (latest.drop 162).take 27 ∧
      (splice_mined tx latest).index = (latest.drop 189).take 27 ∧
      (splice_mined tx latest).last_index = (latest.drop 216).take 27) := by
  refine ⟨update_essence_spec txs latest hne hwf hlen, ?_, ?_⟩
  · intro tx
    exact ⟨rfl, rfl, rfl, rfl, rfl, rfl, rfl, rfl, rfl, rfl, rfl, rfl, rfl,
      rfl, rfl⟩
  · intro tx
    exact ⟨rfl, rfl, rfl, rfl, rfl, rfl, rfl, rfl, rfl, rfl, rfl, rfl, rfl,
      rfl, rfl⟩

/-- Witness for C5 (amended) at a concrete singleton bundle. -/
theorem finalize_mined_essence_frame_witness :
    update_essence_with_mined_essence [mkTx addrA]
      (List.replicate 243 Trit.zero) =
      .ret (.ok [rebuild_transaction
        (splice_mined (mkTx addrA) (List.replicate 243 Trit.zero))]) := by
  have h := (finalize_mined_essence_frame [mkTx addrA]
    (List.replicate 243 Trit.zero) (by simp)
    (WFTx_of_mem_single _ (WFTx_mkTx addrA length_addrA))
    (List.length_replicate _ _)).1
  rw [h]
  simp only [List.length_singleton, Nat.sub_self, List.getLast_singleton,
    List.set_cons_zero, List.map_cons, List.map_nil]

/-- Transaction whose bundle-hash region is all ones, otherwise like
mkTx addrA; its bundle region lies at raw offsets 7047..7290, outside the
mined span. -/
def c5Tx : BundledTransaction :=
  { mkTx addrA with bundle := List.replicate 243 Trit.pos }

theorem WFTx_c5Tx : WFTx c5Tx := by
  obtain ⟨h1, h2, h3, h4, h5, h6, h7, _, h9, h10, h11, h12, h13, h14, h15⟩ :=
    WFTx_mkTx addrA length_addrA
  exact ⟨h1, h2, h3, h4, h5, h6, h7, List.length_replicate _ _, h9, h10,
    h11, h12, h13, h14, h15⟩

/-- Counterexample to C5 as stated: finalizing this one-transaction bundle
with a mined part identical to the 243-trit span it replaces (so the claim
predicts a bit-identical result) succeeds but returns a transaction whose
bundle-hash field, outside the 6804..7047 span, has been zeroed and so
differs from the pre-mining transaction. -/
theorem finalize_mined_essence_counterexample :
    update_essence_with_mined_essence [c5Tx] (List.replicate 243 Trit.zero) =
      .ret (.ok [rebuild_transaction c5Tx]) ∧
    splice_mined c5Tx (List.replicate 243 Trit.zero) = c5Tx ∧
    (rebuild_transaction c5Tx).bundle ≠ c5Tx.bundle := by
  have hsp : splice_mined c5Tx (List.replicate 243 Trit.zero) = c5Tx := rfl
  refine ⟨?_, hsp, by decide⟩
  have h := update_essence_spec [c5Tx] (List.replicate 243 Trit.zero)
    (by simp) (WFTx_of_mem_single _ WFTx_c5Tx) (List.length_replicate _ _)
  rw [h]
  simp only [List.length_singleton, Nat.sub_self, List.getLast_singleton,
    List.set_cons_zero, List.map_cons, List.map_nil, hsp]

theorem length_expected_addresses (s i : Nat) :
    ∀ (n start : Nat), (expected_addresses s i start n).length = 2 * n := by
  intro n
  induction n with
  | zero => intro start; rfl
  | succ n ih =>
    intro start
    simp only [expected_addresses, List.length_cons, ih (start + 1)]
    omega

theorem getElem_expected_addresses (s i : Nat) :
    ∀ (n start k : Nat), k < n →
      (expected_addresses s i start n)[2 * k]? =
        some (derived_address s i (start + k) false, false) ∧
      (expected_addresses s i start n)[2 * k + 1]? =
        some (derived_address s i (start + k) true, true) := by
  intro n
  induction n with
  | zero => intro start k hk; exact absurd hk (Nat.not_lt_zero k)
  | succ n ih =>
    intro start k hk
    cases k with
    | zero =>
      constructor
      · simp [expected_addresses]
      · simp [expected_addresses]
    | succ k =>
      have h := ih (start + 1) k (by omega)
      constructor
      · rw [show 2 * (k + 1) = 2 * k + 1 + 1 by ring]
        simp only [expected_addresses, List.getElem?_cons_succ]
        rw [show start + (k + 1) = start + 1 + k by omega]
        exact h.1
      · rw [show 2 * (k + 1) + 1 = (2 * k + 1) + 1 + 1 by ring]
        simp only [expected_addresses, List.getElem?_cons_succ]
        rw [show start + (k + 1) = start + 1 + k by omega]
        exact h.2

/-- C6: for an Ed25519 seed and a supplied account index,
GetAddressesBuilder get returns exactly the closed-form derivation list:
2 * L pairs for a range of length L (default range 0..20), where for the
k-th index of the range the external address (is_internal false)
immediately precedes the internal address (is_internal true).  The output
is the value of a pure function of (seed, account index, range), hence
deterministic. -/
theorem get_addresses_output_shape (s i a b : Nat) :
    GetAddressesBuilder.get (Seed.ed25519 s) (some i) (some (a, b)) =
      .ret (.ok (expected_addresses s i a (b - a))) ∧
    GetAddressesBuilder.get (Seed.ed25519 s) (some i) none =
      .ret (.ok (expected_addresses s i 0 20)) ∧
    (expected_addresses s i a (b - a)).length = 2 * (b - a) ∧
    (∀ k, k < b - a →
      (expected_addresses s i a (b - a))[2 * k]? =
        some (derived_address s i (a + k) false, false) ∧
      (expected_addresses s i a (b - a))[2 * k + 1]? =
        some (derived_address s i (a + k) true, true)) := by
  refine ⟨?_, ?_, length_expected_addresses s i _ _,
    fun k hk => getElem_expected_addresses s i _ a k hk⟩
  · unfold GetAddressesBuilder.get
    simp only [Option.getD]
    rw [get_addresses_loop_eq]
  · unfold GetAddressesBuilder.get
    simp only [Option.getD]
    rw [get_addresses_loop_eq]

/-- Witness for C6 at seed 5, account 1, range 2..4. -/
theorem get_addresses_output_shape_witness :
    GetAddressesBuilder.get (Seed.ed25519 5) (some 1) (some (2, 4)) =
      .ret (.ok (expected_addresses 5 1 2 2)) ∧
    (expected_addresses 5 1 2 2).length = 4 ∧
    (expected_addresses 5 1 2 2)[0]? =
      some (derived_address 5 1 2 false, false) ∧
    (expected_addresses 5 1 2 2)[1]? =
      some (derived_address 5 1 2 true, true) := by
  have h := get_addresses_output_shape 5 1 2 4
  have hk := h.2.2.2 0 (by norm_num)
  refine ⟨h.1, by simpa using h.2.2.1, by simpa using hk.1,
    by simpa using hk.2⟩

theorem tryte_string_length_of_wf (tx : BundledTransaction) (h : WFTx tx) :
    (tritsToTryteString (as_trits tx)).length = 2673 := by
  show (tryteCharsOfTrits (as_trits tx)).length = 2673
  rw [length_tryteCharsOfTrits, length_as_trits tx h]

/-- C7 (amended): serializing a built bundle is the pure, deterministic
per-transaction tryte encoding of the full 8019-trit raw representation at
three trits per character, giving strings of fixed length 2673 (not 81)
characters, and the encoding is lossless: decoding a serialized transaction
returns exactly its raw trits. -/
theorem bundle_trytes_serialization (built : List BundledTransaction)
    (hwf : ∀ tx ∈ built, WFTx tx) :
    get_trytes_from_bundle built =
      built.map (fun tx => tritsToTryteString (as_trits tx)) ∧
    ∀ tx ∈ built,
      (tritsToTryteString (as_trits tx)).length = 2673 ∧
      tryteStringToTrits (tritsToTryteString (as_trits tx)) =
        .ok (as_trits tx) := by
  refine ⟨rfl, fun tx htx =>
    ⟨tryte_string_length_of_wf tx (hwf tx htx), ?_⟩⟩
  apply tryteStringToTrits_tritsToTryteString
  rw [length_as_trits tx (hwf tx htx)]

/-- Witness for C7 (amended) at a concrete well-formed transaction. -/
theorem bundle_trytes_serialization_witness :
    get_trytes_from_bundle [mkTx addrA] =
      [tritsToTryteString (as_trits (mkTx addrA))] ∧
    (tritsToTryteString (as_trits (mkTx addrA))).length = 2673 ∧
    tryteStringToTrits (tritsToTryteString (as_trits (mkTx addrA))) =
      .ok (as_trits (mkTx addrA)) := by
  have h := bundle_trytes_serialization [mkTx addrA]
    (WFTx_of_mem_single _ (WFTx_mkTx addrA length_addrA))
  have h2 := h.2 (mkTx addrA) (by simp)
  exact ⟨by simpa using h.1, h2.1, h2.2⟩

/-- Counterexample to C7 as stated: the tryte string of a transaction has
2673 characters (8019 trits at 3 per character), not the claimed fixed
81-character transaction length. -/
theorem bundle_trytes_length_counterexample :
    (get_trytes_from_bundle [mkTx addrA]).map String.length = [2673] ∧
    (2673 : Nat) ≠ 81 := by
  constructor
  · simp only [get_trytes_from_bundle, List.map_cons, List.map_nil]
    rw [tryte_string_length_of_wf _ (WFTx_mkTx addrA length_addrA)]
  · decide

/-- C8: mine with an empty known-used-bundle-hashes list returns the
migration error before any other work: the result is this error for every
decoy bundle, security level, hardware-wallet flag, timeout, offset and
core count. -/
theorem mine_rejects_empty_spent_hashes
    (decoy_built : List BundledTransaction) (security_level : Nat)
    (ledger : Bool) (timeout : Nat) (offset : Int) (num_cpus : Nat) :
    mine decoy_built security_level ledger [] timeout offset num_cpus =
      .error .cannotMineWithoutSpentBundleHashes := rfl

/-- Concrete tryte string used as a known bundle hash. -/
def cHashStr : String := "ABC"

/-- C9: whenever mine succeeds, the allowed count of 13-free fragments in
the configuration handed to the miner is exactly 81 when targeting a
hardware wallet, and security_level * 27 otherwise (for the valid security
levels 1, 2, 3, where the u8 product does not wrap). -/
theorem mine_13_free_fragments_value
    (decoy_built : List BundledTransaction) (security_level : Nat)
    (ledger : Bool) (spent_bundle_hashes : List String) (timeout : Nat)
    (offset : Int) (num_cpus : Nat) (cfg : MinerConfig)
    (hlvl : security_level = 1 ∨ security_level = 2 ∨ security_level = 3)
    (hok : mine decoy_built security_level ledger spent_bundle_hashes
      timeout offset num_cpus = .ok cfg) :
    cfg.num_13_free_fragments =
      if ledger then 81 else security_level * 27 := by
  unfold mine at hok
  by_cases hsp : spent_bundle_hashes.isEmpty = true
  · rw [if_pos hsp] at hok
    exact absurd hok (by simp)
  · rw [if_neg hsp] at hok
    rcases hE : List.mapM tryteStringToTrits
        (get_bundle_essence_parts decoy_built) with eE | vE <;>
      rcases hH : List.mapM tryteStringToTrits spent_bundle_hashes
        with eH | vH <;>
      simp only [hE, hH] at hok
    all_goals try exact absurd hok (fun hcontra => Except.noConfusion hcontra)
    all_goals simp only [Except.ok.injEq] at hok
    all_goals subst hok
    all_goals rcases hlvl with h | h | h <;> subst h <;> cases ledger <;>
      simp_all

/-- Witness for C9 at a concrete successful mine invocation with security
level 2 and no hardware wallet: the count is 54. -/
theorem mine_13_free_fragments_value_witness :
    ∃ cfg, mine [mkTx addrA] 2 false [cHashStr] 100 0 4 = .ok cfg ∧
      cfg.num_13_free_fragments = 2 * 27 := by
  refine ⟨_, rfl, ?_⟩
  have h := mine_13_free_fragments_value [mkTx addrA] 2 false [cHashStr]
    100 0 4 _ (Or.inr (Or.inl rfl)) rfl
  exact h

/-- C10: update_essence_with_mined_essence needs a non-empty transaction
list and a mined part of exactly 243 trits: under those preconditions (for
well-formed transactions) the last-element indexing and the 6804..7047
splice are in bounds and a rebuilt bundle is returned, while the empty list
panics at the last-element indexing and a mined part of any other length
panics at the copy, neither case returning an error value. -/
theorem update_essence_panic_contract (txs : List BundledTransaction)
    (latest : List Trit) :
    update_essence_with_mined_essence [] latest =
      .panicked .indexOutOfBounds ∧
    (txs ≠ [] → latest.length ≠ 243 →
      update_essence_with_mined_essence txs latest =
        .panicked .copyFromLengthMismatch) ∧
    (txs ≠ [] → (∀ tx ∈ txs, WFTx tx) → latest.length = 243 →
      ∃ out, update_essence_with_mined_essence txs latest =
        .ret (.ok out)) := by
  refine ⟨rfl, ?_, ?_⟩
  · intro hne hlen
    have hlast : txs.getLast? = some (txs.getLast hne) :=
      List.getLast?_eq_getLast txs hne
    simp only [update_essence_with_mined_essence, hlast]
    rw [if_pos hlen]
  · intro hne hwf hlen
    exact ⟨_, update_essence_spec txs latest hne hwf hlen⟩

/-- Witness for C10: the empty list panics, a 100-trit mined part panics,
and a 243-trit mined part on a well-formed singleton bundle succeeds. -/
theorem update_essence_panic_contract_witness :
    update_essence_with_mined_essence [] (List.replicate 243 Trit.zero) =
      .panicked .indexOutOfBounds ∧
    update_essence_with_mined_essence [mkTx addrA]
      (List.replicate 100 Trit.zero) = .panicked .copyFromLengthMismatch ∧
    ∃ out, update_essence_with_mined_essence [mkTx addrA]
      (List.replicate 243 Trit.zero) = .ret (.ok out) := by
  refine ⟨(update_essence_panic_contract []
      (List.replicate 243 Trit.zero)).1,
    (update_essence_panic_contract [mkTx addrA]
      (List.replicate 100 Trit.zero)).2.1 (by simp) (by simp),
    (update_essence_panic_contract [mkTx addrA]
      (List.replicate 243 Trit.zero)).2.2 (by simp)
      (WFTx_of_mem_single _ (WFTx_mkTx addrA length_addrA))
      (List.length_replicate _ _)⟩
